import Mathlib

/-!
Verification of the deluge-reannounce retry controller.

The definitions below are a shallow embedding of the current revision of the
program (version 1.1.2, the `package main` file whose ForceReannounce returns
a Bool and checks torrent status; `main_test.go` calls it with that
signature).  The retry loop `for { select { case <-timeoutChan: ...;
case <-ticker.C: ... } }` is modelled as a discrete-event simulation:

* time is a natural number of seconds;
* the ticker produced by `time.NewTicker(interval)` fires at
  `interval, 2*interval, ...`; its channel buffers one tick, so the next
  deliverable tick after one is consumed at instant `s` is the least
  multiple of `interval` strictly greater than `s`;
* the `time.After(timeout)` channel becomes ready at instant `timeout` and
  stays ready until consumed;
* `select` takes whichever channel becomes ready first; when both are ready
  at the same instant Go chooses pseudo-randomly, which is modelled by the
  environment oracle `timeoutFirst`;
* the remote calls `client.ForceReannounce` and `GetTorrentStatus` are
  instantaneous and their results come from the environment oracles
  `triggerErr` and `fetchRes`; the fixed `time.Sleep(2 * time.Second)`
  between them advances the clock by `graceSleep = 2`.

The run records a trace of the externally visible daemon interactions
(trigger commands and status fetches) with the attempt number and the
instant at which each happened.
-/

namespace DelugeReannounce

/-- TorrentStatus: the two fields of `deluge.TorrentStatus` that the retry
loop's control flow reads (the remaining fields are only formatted into log
messages). -/
structure TorrentStatus where
  State : String
  TrackerStatus : String
deriving DecidableEq, Repr

/-- The success condition of the loop body (line
`if (status.State == "Downloading" || status.State == "Seeding") &&
status.TrackerStatus == "Announce OK"`). -/
def reannounceSuccess (status : TorrentStatus) : Bool :=
  (status.State == "Downloading" || status.State == "Seeding")
    && status.TrackerStatus == "Announce OK"

/-- The fixed grace pause `time.Sleep(2 * time.Second)` between the trigger
command and the status fetch, in seconds. -/
def graceSleep : Nat := 2

/-- One externally visible daemon interaction of the loop: the trigger
command `client.ForceReannounce([]string{torrentID})` or the status fetch
`d.GetTorrentStatus(torrentID)`, with the attempt number and the instant at
which it was issued. -/
inductive Event where
  | trigger (attempt : Nat) (time : Nat)
  | fetch (attempt : Nat) (time : Nat)
deriving DecidableEq, Repr

/-- Attempt number of an event. -/
def eventAttempt : Event → Nat
  | Event.trigger k _ => k
  | Event.fetch k _ => k

/-- Instant of an event. -/
def eventTime : Event → Nat
  | Event.trigger _ t => t
  | Event.fetch _ t => t

/-- Sort key placing the trigger of attempt `k` before its fetch and every
event of attempt `k` before every event of attempt `k + 1`. -/
def eventKey : Event → Nat
  | Event.trigger k _ => 2 * k
  | Event.fetch k _ => 2 * k + 1

/-- The environment of one run: what the daemon answers on each attempt and
how Go's `select` breaks ties when the ticker and the timeout channel are
ready at the same instant.  `triggerErr k = true` means the trigger command
of attempt `k` returns an error; `fetchRes k = none` means the status fetch
of attempt `k` returns an error (connection failure or unknown torrent id),
otherwise the fetched snapshot; `timeoutFirst n = true` means the `n`-th
`select` of the run picks the timeout case when both cases are ready. -/
structure Env where
  triggerErr : Nat → Bool
  fetchRes : Nat → Option TorrentStatus
  timeoutFirst : Nat → Bool

/-- The loop's mutable state between two `select`s: the current instant, the
fire instant of the next deliverable ticker tick, the `attempts` counter and
the number of `select`s executed so far. -/
structure LoopState where
  now : Nat
  nextTick : Nat
  attempts : Nat
  iter : Nat
deriving DecidableEq, Repr

/-- Instant at which the pending tick is consumed: the tick has fired at
`nextTick` and the loop reaches the `select` at `now`. -/
def tickTime (st : LoopState) : Nat := max st.now st.nextTick

/-- Least multiple of `i` strictly greater than `s`: the fire instant of the
next tick the buffered ticker channel will deliver after a tick was consumed
at instant `s` (ticks fired while the buffer was full are dropped). -/
def nextTickAfter (i s : Nat) : Nat := i * (s / i + 1)

/-- Whether the `select` takes the `<-timeoutChan` case: the timeout channel
(ready from instant `T` on) becomes ready strictly before the pending tick,
or both are ready at the same instant and the tie-break oracle picks the
timeout case. -/
def timeoutWins (env : Env) (T : Nat) (st : LoopState) : Bool :=
  if max st.now T < tickTime st then true
  else if max st.now T = tickTime st then env.timeoutFirst st.iter
  else false

/-- State after an attempt whose trigger command failed: the body executes
`continue` immediately, so the clock stays at the tick's delivery instant. -/
def contTrigErr (i : Nat) (st : LoopState) : LoopState :=
  ⟨tickTime st, nextTickAfter i (tickTime st), st.attempts + 1, st.iter + 1⟩

/-- State after an attempt that reached the status fetch: the grace sleep
advanced the clock by `graceSleep` before the fetch and the evaluation. -/
def contEval (i : Nat) (st : LoopState) : LoopState :=
  ⟨tickTime st + graceSleep, nextTickAfter i (tickTime st), st.attempts + 1, st.iter + 1⟩

/-- Result of a run of the retry loop: `outcome` is the Bool the Go function
returns (`none` when the simulation ran out of fuel before the loop
returned), `attempts` the final value of the `attempts` counter, `trace` the
chronological list of daemon interactions. -/
structure RunRes where
  outcome : Option Bool
  attempts : Nat
  trace : List Event
deriving DecidableEq, Repr

/-- The retry loop of `ForceReannounce` (the `for`/`select` statement).  Each
recursive step is one `select`: the timeout case logs and returns `false`
with the current `attempts` counter; the ticker case increments `attempts`,
issues the trigger command (on error: log and `continue`), sleeps
`graceSleep`, fetches the status (on error: log and `continue`), and returns
`true` if `reannounceSuccess` holds, otherwise continues.  `fuel` bounds the
number of `select`s simulated. -/
def runLoop (env : Env) (T i : Nat) : Nat → LoopState → RunRes
  | 0, st => ⟨none, st.attempts, []⟩
  | fuel + 1, st =>
    if timeoutWins env T st then
      ⟨some false, st.attempts, []⟩
    else if env.triggerErr (st.attempts + 1) then
      let r := runLoop env T i fuel (contTrigErr i st)
      ⟨r.outcome, r.attempts, Event.trigger (st.attempts + 1) (tickTime st) :: r.trace⟩
    else
      match env.fetchRes (st.attempts + 1) with
      | none =>
        let r := runLoop env T i fuel (contEval i st)
        ⟨r.outcome, r.attempts,
          Event.trigger (st.attempts + 1) (tickTime st)
            :: Event.fetch (st.attempts + 1) (tickTime st + graceSleep) :: r.trace⟩
      | some status =>
        if reannounceSuccess status then
          ⟨some true, st.attempts + 1,
            [Event.trigger (st.attempts + 1) (tickTime st),
             Event.fetch (st.attempts + 1) (tickTime st + graceSleep)]⟩
        else
          let r := runLoop env T i fuel (contEval i st)
          ⟨r.outcome, r.attempts,
            Event.trigger (st.attempts + 1) (tickTime st)
              :: Event.fetch (st.attempts + 1) (tickTime st + graceSleep) :: r.trace⟩

/-- State at the top of the loop: clock at 0, first tick due at `i`, no
attempt made, no `select` executed. -/
def initState (i : Nat) : LoopState := ⟨0, i, 0, 0⟩

/-- Go's `time.NewTicker` contract (stdlib collaborator): it panics when the
interval is not positive, otherwise yields a ticker with that period.
`ForceReannounce` calls it as its first step. -/
def NewTicker (d : Int) : Option Nat :=
  if d ≤ 0 then none else some d.toNat

/-- Outcome of calling `ForceReannounce`: either the `time.NewTicker` panic
on a non-positive interval, or a run of the retry loop. -/
inductive RunOutcome where
  | panicked
  | ok (r : RunRes)
deriving DecidableEq, Repr

/-- `ForceReannounce(torrentID, timeout, interval)`: constructs the ticker
first (panicking on a non-positive interval), arms `time.After(timeout)`
(a non-positive timeout fires immediately, modelled by `Int.toNat`), and
runs the retry loop. -/
def ForceReannounce (env : Env) (timeout interval : Int) (fuel : Nat) : RunOutcome :=
  match NewTicker interval with
  | none => RunOutcome.panicked
  | some i => RunOutcome.ok (runLoop env timeout.toNat i fuel (initState i))

/-- Number of trigger commands sent during a run, i.e. the number of
attempts actually made (every entry into the ticker case sends exactly one
trigger command). -/
def countTriggers (tr : List Event) : Nat :=
  tr.countP fun e =>
    match e with
    | Event.trigger _ _ => true
    | Event.fetch _ _ => false

/-- Whether attempt `k` satisfies the loop's success condition in
environment `env`: its trigger command succeeds, its status fetch succeeds,
and the fetched snapshot passes `reannounceSuccess`. -/
def attemptSucceeds (env : Env) (k : Nat) : Bool :=
  !env.triggerErr k
    && (match env.fetchRes k with
        | some status => reannounceSuccess status
        | none => false)

/-- Well-formed trace from a loop state whose `attempts` counter is `a` and
whose clock is at `t`: blocks of one trigger, optionally followed by its
fetch `graceSleep` later, with strictly increasing attempt numbers and
nondecreasing instants. -/
inductive TraceWF : Nat → Nat → List Event → Prop where
  | nil (a t : Nat) : TraceWF a t []
  | trig (a t k s : Nat) (rest : List Event) (hk : a < k) (ht : t ≤ s)
      (hrest : TraceWF k s rest) : TraceWF a t (Event.trigger k s :: rest)
  | trigFetch (a t k s : Nat) (rest : List Event) (hk : a < k) (ht : t ≤ s)
      (hrest : TraceWF k (s + graceSleep) rest) :
      TraceWF a t (Event.trigger k s :: Event.fetch k (s + graceSleep) :: rest)

/-- A torrent seeding while its tracker exchange is still pending: the state
check alone would accept it, the tracker check rejects it. -/
def stalledStatus : TorrentStatus := ⟨"Seeding", "Announce Sent"⟩

/-- A torrent whose reannounce has fully taken effect. -/
def okStatus : TorrentStatus := ⟨"Seeding", "Announce OK"⟩

/-- Environment in which no snapshot ever satisfies the success condition:
every trigger command is accepted and every fetch returns `stalledStatus`. -/
def envNeverOK : Env := ⟨fun _ => false, fun _ => some stalledStatus, fun _ => false⟩

/-- Environment in which every attempt succeeds outright. -/
def envAlwaysOK : Env := ⟨fun _ => false, fun _ => some okStatus, fun _ => false⟩

/-- Environment whose trigger command fails on attempt 1 and succeeds
afterwards, with every fetch returning a successful snapshot. -/
def envTrigErrThenOK : Env :=
  ⟨fun k => k == 1, fun _ => some okStatus, fun _ => false⟩

/-- Environment whose status fetch fails on attempt 1 and succeeds
afterwards. -/
def envFetchErrThenOK : Env :=
  ⟨fun _ => false, fun k => if k == 1 then none else some okStatus, fun _ => false⟩

/-- Environment in which every `select` tie is resolved in favour of the
timeout channel (one of the schedules Go's pseudo-random `select` can
produce). -/
def envTieTimeout : Env := ⟨fun _ => false, fun _ => some okStatus, fun _ => true⟩

/-- The Logger of the program: the `level` field stores
`strings.ToUpper(config.Logging.Level)` set by `NewLogger`. -/
structure Logger where
  level : String
deriving DecidableEq, Repr

/-- Level stored by `NewLogger`: the configured level upper-cased. -/
def NewLoggerLevel (configLevel : String) : String := configLevel.toUpper

/-- `Logger.Info`: always writes through `infoLogger` (prefix `INFO: `),
whatever the level is.  The date/time stamp added by `log.Logger` is not
modelled. -/
def Logger.Info (_l : Logger) (msg : String) : Option String :=
  some ("INFO: " ++ msg)

/-- `Logger.Error`: writes only when `l.level == "DEBUG"`, through
`debugLogger` (prefix `DEBUG: `) with `ERROR: ` prepended to the message;
otherwise it writes nothing (`none`). -/
def Logger.Error (l : Logger) (msg : String) : Option String :=
  if l.level = "DEBUG" then some ("DEBUG: " ++ ("ERROR: " ++ msg)) else none

/-- The logging section of the configuration. -/
structure LoggingConfig where
  File : String
  Level : String
deriving DecidableEq, Repr

/-- The retry section of the configuration (seconds, Go `int`). -/
structure RetryConfig where
  Timeout : Int
  Interval : Int
deriving DecidableEq, Repr

/-- The parts of `Config` that `loadConfig`'s default-setting block touches
(the deluge connection section is passed through untouched). -/
structure Config where
  Logging : LoggingConfig
  Retry : RetryConfig
deriving DecidableEq, Repr

/-- The default-setting block of `loadConfig`, applied after the YAML
unmarshal (an absent field unmarshals to the zero value `""` or `0`). -/
def loadConfigDefaults (c : Config) : Config :=
  { Logging :=
      { File := if c.Logging.File = "" then "deluge-reannounce.log" else c.Logging.File
        Level := if c.Logging.Level = "" then "INFO" else c.Logging.Level }
    Retry :=
      { Timeout := if c.Retry.Timeout = 0 then 120 else c.Retry.Timeout
        Interval := if c.Retry.Interval = 0 then 7 else c.Retry.Interval } }

/-! Helper lemmas shared by the claim theorems. -/

lemma contTrigErr_attempts (i : Nat) (st : LoopState) :
    (contTrigErr i st).attempts = st.attempts + 1 := rfl

lemma contEval_attempts (i : Nat) (st : LoopState) :
    (contEval i st).attempts = st.attempts + 1 := rfl

/-- Unfolding of one `select` that takes the timeout case. -/
lemma runLoop_succ_timeout (env : Env) (T i fuel : Nat) (st : LoopState)
    (hT : timeoutWins env T st = true) :
    runLoop env T i (fuel + 1) st = ⟨some false, st.attempts, []⟩ := by
  rw [runLoop]
  simp [hT]

/-- Unfolding of one ticker case whose trigger command fails. -/
lemma runLoop_succ_trigErr (env : Env) (T i fuel : Nat) (st : LoopState)
    (hT : timeoutWins env T st = false)
    (hE : env.triggerErr (st.attempts + 1) = true) :
    runLoop env T i (fuel + 1) st =
      ⟨(runLoop env T i fuel (contTrigErr i st)).outcome,
       (runLoop env T i fuel (contTrigErr i st)).attempts,
       Event.trigger (st.attempts + 1) (tickTime st)
         :: (runLoop env T i fuel (contTrigErr i st)).trace⟩ := by
  rw [runLoop]
  simp [hT, hE]

/-- Unfolding of one ticker case whose status fetch fails. -/
lemma runLoop_succ_fetchErr (env : Env) (T i fuel : Nat) (st : LoopState)
    (hT : timeoutWins env T st = false)
    (hE : env.triggerErr (st.attempts + 1) = false)
    (hF : env.fetchRes (st.attempts + 1) = none) :
    runLoop env T i (fuel + 1) st =
      ⟨(runLoop env T i fuel (contEval i st)).outcome,
       (runLoop env T i fuel (contEval i st)).attempts,
       Event.trigger (st.attempts + 1) (tickTime st)
         :: Event.fetch (st.attempts + 1) (tickTime st + graceSleep)
         :: (runLoop env T i fuel (contEval i st)).trace⟩ := by
  rw [runLoop]
  simp [hT, hE, hF]

/-- Unfolding of one ticker case whose snapshot passes the success
condition. -/
lemma runLoop_succ_success (env : Env) (T i fuel : Nat) (st : LoopState)
    (status : TorrentStatus)
    (hT : timeoutWins env T st = false)
    (hE : env.triggerErr (st.attempts + 1) = false)
    (hF : env.fetchRes (st.attempts + 1) = some status)
    (hS : reannounceSuccess status = true) :
    runLoop env T i (fuel + 1) st =
      ⟨some true, st.attempts + 1,
       [Event.trigger (st.attempts + 1) (tickTime st),
        Event.fetch (st.attempts + 1) (tickTime st + graceSleep)]⟩ := by
  rw [runLoop]
  simp [hT, hE, hF, hS]

/-- Unfolding of one ticker case whose snapshot fails the success
condition. -/
lemma runLoop_succ_noSuccess (env : Env) (T i fuel : Nat) (st : LoopState)
    (status : TorrentStatus)
    (hT : timeoutWins env T st = false)
    (hE : env.triggerErr (st.attempts + 1) = false)
    (hF : env.fetchRes (st.attempts + 1) = some status)
    (hS : reannounceSuccess status = false) :
    runLoop env T i (fuel + 1) st =
      ⟨(runLoop env T i fuel (contEval i st)).outcome,
       (runLoop env T i fuel (contEval i st)).attempts,
       Event.trigger (st.attempts + 1) (tickTime st)
         :: Event.fetch (st.attempts + 1) (tickTime st + graceSleep)
         :: (runLoop env T i fuel (contEval i st)).trace⟩ := by
  rw [runLoop]
  simp [hT, hE, hF, hS]

lemma countTriggers_nil : countTriggers [] = 0 := rfl

lemma countTriggers_cons_trigger (k s : Nat) (tr : List Event) :
    countTriggers (Event.trigger k s :: tr) = countTriggers tr + 1 := by
  simp [countTriggers, List.countP_cons]

lemma countTriggers_cons_fetch (k s : Nat) (tr : List Event) :
    countTriggers (Event.fetch k s :: tr) = countTriggers tr := by
  simp [countTriggers, List.countP_cons]

/-- The final `attempts` counter is the starting counter plus the number of
trigger commands sent: the ticker case increments the counter exactly once
and sends exactly one trigger command. -/
lemma runLoop_attempts_eq (env : Env) (T i : Nat) :
    ∀ fuel st, (runLoop env T i fuel st).attempts
      = st.attempts + countTriggers (runLoop env T i fuel st).trace := by
  intro fuel
  induction fuel with
  | zero =>
    intro st
    simp [runLoop, countTriggers_nil]
  | succ fuel ih =>
    intro st
    cases hT : timeoutWins env T st with
    | true => rw [runLoop_succ_timeout env T i fuel st hT]; simp [countTriggers_nil]
    | false =>
      cases hE : env.triggerErr (st.attempts + 1) with
      | true =>
        rw [runLoop_succ_trigErr env T i fuel st hT hE]
        have h := ih (contTrigErr i st)
        rw [contTrigErr_attempts] at h
        simp only [countTriggers_cons_trigger]
        omega
      | false =>
        cases hF : env.fetchRes (st.attempts + 1) with
        | none =>
          rw [runLoop_succ_fetchErr env T i fuel st hT hE hF]
          have h := ih (contEval i st)
          rw [contEval_attempts] at h
          simp only [countTriggers_cons_trigger, countTriggers_cons_fetch]
          omega
        | some status =>
          cases hS : reannounceSuccess status with
          | true =>
            rw [runLoop_succ_success env T i fuel st status hT hE hF hS]
            simp [countTriggers_cons_trigger, countTriggers_cons_fetch, countTriggers_nil]
          | false =>
            rw [runLoop_succ_noSuccess env T i fuel st status hT hE hF hS]
            have h := ih (contEval i st)
            rw [contEval_attempts] at h
            simp only [countTriggers_cons_trigger, countTriggers_cons_fetch]
            omega

/-- The `attempts` counter never decreases over a run. -/
lemma runLoop_attempts_le (env : Env) (T i fuel : Nat) (st : LoopState) :
    st.attempts ≤ (runLoop env T i fuel st).attempts := by
  rw [runLoop_attempts_eq]
  omega

/-- When the `select` takes the ticker case, the run makes at least one more
attempt. -/
lemma runLoop_step_attempt (env : Env) (T i fuel : Nat) (st : LoopState)
    (hT : timeoutWins env T st = false) :
    st.attempts + 1 ≤ (runLoop env T i (fuel + 1) st).attempts := by
  cases hE : env.triggerErr (st.attempts + 1) with
  | true =>
    rw [runLoop_succ_trigErr env T i fuel st hT hE]
    have h := runLoop_attempts_le env T i fuel (contTrigErr i st)
    rw [contTrigErr_attempts] at h
    exact h
  | false =>
    cases hF : env.fetchRes (st.attempts + 1) with
    | none =>
      rw [runLoop_succ_fetchErr env T i fuel st hT hE hF]
      have h := runLoop_attempts_le env T i fuel (contEval i st)
      rw [contEval_attempts] at h
      exact h
    | some status =>
      cases hS : reannounceSuccess status with
      | true =>
        rw [runLoop_succ_success env T i fuel st status hT hE hF hS]
      | false =>
        rw [runLoop_succ_noSuccess env T i fuel st status hT hE hF hS]
        have h := runLoop_attempts_le env T i fuel (contEval i st)
        rw [contEval_attempts] at h
        exact h

/-- When the run returns `true`, the final counter names an attempt that
satisfied the success condition and no attempt strictly between the starting
counter and the final one satisfied it. -/
lemma runLoop_success_first (env : Env) (T i : Nat) :
    ∀ fuel st, (runLoop env T i fuel st).outcome = some true →
      attemptSucceeds env (runLoop env T i fuel st).attempts = true ∧
      ∀ k, st.attempts < k → k < (runLoop env T i fuel st).attempts →
        attemptSucceeds env k = false := by
  intro fuel
  induction fuel with
  | zero =>
    intro st h
    simp [runLoop] at h
  | succ fuel ih =>
    intro st
    cases hT : timeoutWins env T st with
    | true =>
      rw [runLoop_succ_timeout env T i fuel st hT]
      intro h
      simp at h
    | false =>
      cases hE : env.triggerErr (st.attempts + 1) with
      | true =>
        rw [runLoop_succ_trigErr env T i fuel st hT hE]
        intro h
        obtain ⟨h1, h2⟩ := ih (contTrigErr i st) h
        rw [contTrigErr_attempts] at h2
        refine ⟨h1, ?_⟩
        intro k hk1 hk2
        by_cases hk : k = st.attempts + 1
        · subst hk
          simp [attemptSucceeds, hE]
        · exact h2 k (by omega) hk2
      | false =>
        cases hF : env.fetchRes (st.attempts + 1) with
        | none =>
          rw [runLoop_succ_fetchErr env T i fuel st hT hE hF]
          intro h
          obtain ⟨h1, h2⟩ := ih (contEval i st) h
          rw [contEval_attempts] at h2
          refine ⟨h1, ?_⟩
          intro k hk1 hk2
          by_cases hk : k = st.attempts + 1
          · subst hk
            simp [attemptSucceeds, hE, hF]
          · exact h2 k (by omega) hk2
        | some status =>
          cases hS : reannounceSuccess status with
          | true =>
            rw [runLoop_succ_success env T i fuel st status hT hE hF hS]
            intro _
            constructor
            · simp [attemptSucceeds, hE, hF, hS]
            · intro k hk1 hk2
              have hk2' : k < st.attempts + 1 := hk2
              omega
          | false =>
            rw [runLoop_succ_noSuccess env T i fuel st status hT hE hF hS]
            intro h
            obtain ⟨h1, h2⟩ := ih (contEval i st) h
            rw [contEval_attempts] at h2
            refine ⟨h1, ?_⟩
            intro k hk1 hk2
            by_cases hk : k = st.attempts + 1
            · subst hk
              simp [attemptSucceeds, hE, hF, hS]
            · exact h2 k (by omega) hk2

/-- Every run's trace is well formed: it is a sequence of
trigger-then-optional-fetch blocks with strictly increasing attempt numbers
and nondecreasing instants, starting after the state's counter and clock. -/
lemma runLoop_traceWF (env : Env) (T i : Nat) :
    ∀ fuel st, TraceWF st.attempts st.now (runLoop env T i fuel st).trace := by
  intro fuel
  induction fuel with
  | zero =>
    intro st
    exact TraceWF.nil _ _
  | succ fuel ih =>
    intro st
    cases hT : timeoutWins env T st with
    | true =>
      rw [runLoop_succ_timeout env T i fuel st hT]
      exact TraceWF.nil _ _
    | false =>
      cases hE : env.triggerErr (st.attempts + 1) with
      | true =>
        rw [runLoop_succ_trigErr env T i fuel st hT hE]
        exact TraceWF.trig _ _ _ _ _ (Nat.lt_succ_self _) (Nat.le_max_left _ _) (ih (contTrigErr i st))
      | false =>
        cases hF : env.fetchRes (st.attempts + 1) with
        | none =>
          rw [runLoop_succ_fetchErr env T i fuel st hT hE hF]
          exact TraceWF.trigFetch _ _ _ _ _ (Nat.lt_succ_self _) (Nat.le_max_left _ _)
            (ih (contEval i st))
        | some status =>
          cases hS : reannounceSuccess status with
          | true =>
            rw [runLoop_succ_success env T i fuel st status hT hE hF hS]
            exact TraceWF.trigFetch _ _ _ _ _ (Nat.lt_succ_self _) (Nat.le_max_left _ _)
              (TraceWF.nil _ _)
          | false =>
            rw [runLoop_succ_noSuccess env T i fuel st status hT hE hF hS]
            exact TraceWF.trigFetch _ _ _ _ _ (Nat.lt_succ_self _) (Nat.le_max_left _ _)
              (ih (contEval i st))

/-- Every event of a well-formed trace has attempt number above `a` and
instant at or after `t`. -/
lemma traceWF_bounds {a t : Nat} {tr : List Event} (h : TraceWF a t tr) :
    ∀ e ∈ tr, a < eventAttempt e ∧ t ≤ eventTime e := by
  induction h with
  | nil => simp
  | trig a t k s rest hk ht hrest ih =>
    intro e he
    rcases List.mem_cons.mp he with rfl | he
    · exact ⟨hk, ht⟩
    · obtain ⟨h1, h2⟩ := ih e he
      exact ⟨Nat.lt_trans hk h1, Nat.le_trans ht h2⟩
  | trigFetch a t k s rest hk ht hrest ih =>
    intro e he
    rcases List.mem_cons.mp he with rfl | he
    · exact ⟨hk, ht⟩
    rcases List.mem_cons.mp he with rfl | he
    · exact ⟨hk, Nat.le_trans ht (Nat.le_add_right _ _)⟩
    · obtain ⟨h1, h2⟩ := ih e he
      exact ⟨Nat.lt_trans hk h1, Nat.le_trans ht (Nat.le_trans (Nat.le_add_right _ _) h2)⟩

lemma eventKey_lower (e : Event) : 2 * eventAttempt e ≤ eventKey e := by
  cases e <;> simp [eventKey, eventAttempt]

/-- A well-formed trace is strictly sorted by `eventKey`: the trigger of
attempt `k` precedes its fetch, and every event of attempt `k` precedes
every event of any later attempt. -/
lemma traceWF_chain_key {a t : Nat} {tr : List Event} (h : TraceWF a t tr) :
    List.Chain' (fun e e' => eventKey e < eventKey e') tr := by
  induction h with
  | nil => simp
  | trig a t k s rest hk ht hrest ih =>
    rw [List.chain'_cons']
    refine ⟨?_, ih⟩
    intro b hb
    have hb' : b ∈ rest := List.mem_of_mem_head? hb
    have h1 := (traceWF_bounds hrest b hb').1
    have h2 := eventKey_lower b
    show 2 * k < eventKey b
    omega
  | trigFetch a t k s rest hk ht hrest ih =>
    rw [List.chain'_cons']
    constructor
    · intro b hb
      have hb' : b = Event.fetch k (s + graceSleep) := by
        simp only [List.head?_cons, Option.mem_def, Option.some.injEq] at hb
        exact hb.symm
      subst hb'
      show 2 * k < 2 * k + 1
      omega
    rw [List.chain'_cons']
    refine ⟨?_, ih⟩
    intro b hb
    have hb' : b ∈ rest := List.mem_of_mem_head? hb
    have h1 := (traceWF_bounds hrest b hb').1
    have h2 := eventKey_lower b
    show 2 * k + 1 < eventKey b
    omega

/-- The instants of a well-formed trace are nondecreasing. -/
lemma traceWF_chain_time {a t : Nat} {tr : List Event} (h : TraceWF a t tr) :
    List.Chain' (fun e e' => eventTime e ≤ eventTime e') tr := by
  induction h with
  | nil => simp
  | trig a t k s rest hk ht hrest ih =>
    rw [List.chain'_cons']
    refine ⟨?_, ih⟩
    intro b hb
    have hb' : b ∈ rest := List.mem_of_mem_head? hb
    exact (traceWF_bounds hrest b hb').2
  | trigFetch a t k s rest hk ht hrest ih =>
    rw [List.chain'_cons']
    constructor
    · intro b hb
      have hb' : b = Event.fetch k (s + graceSleep) := by
        simp only [List.head?_cons, Option.mem_def, Option.some.injEq] at hb
        exact hb.symm
      subst hb'
      show s ≤ s + graceSleep
      exact Nat.le_add_right _ _
    rw [List.chain'_cons']
    refine ⟨?_, ih⟩
    intro b hb
    have hb' : b ∈ rest := List.mem_of_mem_head? hb
    exact (traceWF_bounds hrest b hb').2

/-- Every fetch of a well-formed trace belongs to an attempt that also
triggered, exactly `graceSleep` earlier. -/
lemma traceWF_fetch_trigger {a t : Nat} {tr : List Event} (h : TraceWF a t tr) :
    ∀ k u, Event.fetch k u ∈ tr →
      ∃ s, u = s + graceSleep ∧ Event.trigger k s ∈ tr := by
  induction h with
  | nil => simp
  | trig a t k' s rest hk ht hrest ih =>
    intro k u hu
    rcases List.mem_cons.mp hu with heq | hu'
    · exact absurd heq (by simp)
    · obtain ⟨s', hs1, hs2⟩ := ih k u hu'
      exact ⟨s', hs1, List.mem_cons_of_mem _ hs2⟩
  | trigFetch a t k' s rest hk ht hrest ih =>
    intro k u hu
    rcases List.mem_cons.mp hu with heq | hu'
    · exact absurd heq (by simp)
    rcases List.mem_cons.mp hu' with heq | hu''
    · injection heq with h1 h2
      subst h1
      exact ⟨s, h2, List.mem_cons_self _ _⟩
    · obtain ⟨s', hs1, hs2⟩ := ih k u hu''
      exact ⟨s', hs1, List.mem_cons_of_mem _ (List.mem_cons_of_mem _ hs2)⟩

/-- When the first tick (due at `interval`) is due strictly after the
timeout instant, the first `select` takes the timeout case regardless of the
tie-break. -/
lemma timeoutWins_init_of_lt (env : Env) (T i : Nat) (h : T < i) :
    timeoutWins env T (initState i) = true := by
  show (if max 0 T < max 0 i then true
        else if max 0 T = max 0 i then env.timeoutFirst 0 else false) = true
  rw [Nat.zero_max, Nat.zero_max, if_pos h]

/-- When the first tick is due strictly before the timeout instant, the
first `select` takes the ticker case regardless of the tie-break. -/
lemma timeoutWins_init_of_gt (env : Env) (T i : Nat) (h : i < T) :
    timeoutWins env T (initState i) = false := by
  show (if max 0 T < max 0 i then true
        else if max 0 T = max 0 i then env.timeoutFirst 0 else false) = false
  rw [Nat.zero_max, Nat.zero_max, if_neg (by omega), if_neg (by omega)]

/-! Claim theorems. -/

/-- Claim C1: the controller's success predicate is conjunctive — an attempt
is a success iff the snapshot's state is Downloading or Seeding AND its
tracker status is the literal `"Announce OK"`; a Seeding snapshot whose
tracker status is `"Announce Sent"` is not a success, a `"Announce OK"`
snapshot in state Checking is not a success, and in an environment whose
snapshots never pass the predicate the loop never returns success (it keeps
retrying until the timeout). -/
theorem reannounce_success_iff :
    (∀ status : TorrentStatus,
        reannounceSuccess status = true ↔
          ((status.State = "Downloading" ∨ status.State = "Seeding") ∧
            status.TrackerStatus = "Announce OK")) ∧
    (∀ status : TorrentStatus, status.State = "Seeding" →
        status.TrackerStatus = "Announce Sent" → reannounceSuccess status = false) ∧
    (∀ status : TorrentStatus, status.State = "Checking" →
        status.TrackerStatus = "Announce OK" → reannounceSuccess status = false) ∧
    (∀ (env : Env) (T i fuel : Nat),
        (∀ k status, env.fetchRes k = some status → reannounceSuccess status = false) →
        (runLoop env T i fuel (initState i)).outcome ≠ some true) := by
  refine ⟨?_, ?_, ?_, ?_⟩
  · intro status
    simp [reannounceSuccess, Bool.and_eq_true, Bool.or_eq_true, beq_iff_eq]
  · intro status h1 h2
    unfold reannounceSuccess
    rw [h1, h2]
    decide
  · intro status h1 h2
    unfold reannounceSuccess
    rw [h1, h2]
    decide
  · intro env T i fuel hnone hcontra
    obtain ⟨h1, -⟩ := runLoop_success_first env T i fuel (initState i) hcontra
    unfold attemptSucceeds at h1
    cases hF : env.fetchRes ((runLoop env T i fuel (initState i)).attempts) with
    | none => rw [hF] at h1; simp at h1
    | some status =>
      rw [hF] at h1
      have hs := hnone _ _ hF
      simp [hs] at h1

/-- Claim C2: when `interval > timeout` the run makes zero attempts (no
trigger command is ever sent — the trace is empty) and returns the timeout
failure at the first `select`. -/
theorem interval_gt_timeout_zero_attempts :
    ∀ (env : Env) (T i fuel : Nat), T < i →
      runLoop env T i (fuel + 1) (initState i) = ⟨some false, 0, []⟩ := by
  intro env T i fuel h
  rw [runLoop_succ_timeout env T i fuel (initState i) (timeoutWins_init_of_lt env T i h)]
  rfl

theorem interval_gt_timeout_zero_attempts_witness :
    runLoop envNeverOK 3 5 1 (initState 5) = ⟨some false, 0, []⟩ :=
  interval_gt_timeout_zero_attempts envNeverOK 3 5 0 (by decide)

/-- Claim C3: on a timeout return the reported `attempts` counter equals the
number of trigger commands actually sent, and in the spec's scenario
(timeout 10, interval 3, no attempt ever succeeding) the attempts fire at
instants 3, 6 and 9 — not at 0 — and the run reports exactly 3 attempts. -/
theorem timeout_attempt_count :
    (∀ (env : Env) (T i fuel : Nat),
        (runLoop env T i fuel (initState i)).outcome = some false →
        (runLoop env T i fuel (initState i)).attempts =
          countTriggers (runLoop env T i fuel (initState i)).trace) ∧
    runLoop envNeverOK 10 3 20 (initState 3) =
      ⟨some false, 3,
       [Event.trigger 1 3, Event.fetch 1 5, Event.trigger 2 6, Event.fetch 2 8,
        Event.trigger 3 9, Event.fetch 3 11]⟩ := by
  constructor
  · intro env T i fuel _
    have h := runLoop_attempts_eq env T i fuel (initState i)
    have h0 : (initState i).attempts = 0 := rfl
    omega
  · rfl

/-- Claim C4: a transient error on an attempt (failed trigger command or
failed status fetch) never aborts the loop — if time remains for another
tick the next attempt still happens — and the concrete runs show the loop
absorbing an attempt-1 trigger failure and an attempt-1 fetch failure and
then succeeding on attempt 2 rather than escalating any error. -/
theorem transient_errors_do_not_abort :
    (∀ (env : Env) (T i fuel : Nat) (st : LoopState),
        timeoutWins env T st = false →
        env.triggerErr (st.attempts + 1) = true →
        timeoutWins env T (contTrigErr i st) = false →
        st.attempts + 2 ≤ (runLoop env T i (fuel + 2) st).attempts) ∧
    (∀ (env : Env) (T i fuel : Nat) (st : LoopState),
        timeoutWins env T st = false →
        env.triggerErr (st.attempts + 1) = false →
        env.fetchRes (st.attempts + 1) = none →
        timeoutWins env T (contEval i st) = false →
        st.attempts + 2 ≤ (runLoop env T i (fuel + 2) st).attempts) ∧
    runLoop envTrigErrThenOK 10 3 20 (initState 3) =
      ⟨some true, 2, [Event.trigger 1 3, Event.trigger 2 6, Event.fetch 2 8]⟩ ∧
    runLoop envFetchErrThenOK 10 3 20 (initState 3) =
      ⟨some true, 2,
       [Event.trigger 1 3, Event.fetch 1 5, Event.trigger 2 6, Event.fetch 2 8]⟩ := by
  refine ⟨?_, ?_, rfl, rfl⟩
  · intro env T i fuel st hT hE hT2
    show st.attempts + 2 ≤ (runLoop env T i (fuel + 1 + 1) st).attempts
    rw [runLoop_succ_trigErr env T i (fuel + 1) st hT hE]
    have h := runLoop_step_attempt env T i fuel (contTrigErr i st) hT2
    rw [contTrigErr_attempts] at h
    exact h
  · intro env T i fuel st hT hE hF hT2
    show st.attempts + 2 ≤ (runLoop env T i (fuel + 1 + 1) st).attempts
    rw [runLoop_succ_fetchErr env T i (fuel + 1) st hT hE hF]
    have h := runLoop_step_attempt env T i fuel (contEval i st) hT2
    rw [contEval_attempts] at h
    exact h

/-- Claim C5: when the run returns success, the reported `attempts` counter
is the ordinal of the first attempt satisfying the success condition (that
attempt satisfies it, no earlier one does), and in the spec's scenario where
already the first fetch returns a Seeding snapshot with tracker status
`"Announce OK"` the run returns success with attempts = 1. -/
theorem success_attempt_count_first :
    (∀ (env : Env) (T i fuel : Nat),
        (runLoop env T i fuel (initState i)).outcome = some true →
        attemptSucceeds env ((runLoop env T i fuel (initState i)).attempts) = true ∧
        ∀ k, 0 < k → k < (runLoop env T i fuel (initState i)).attempts →
          attemptSucceeds env k = false) ∧
    runLoop envAlwaysOK 120 7 20 (initState 7) =
      ⟨some true, 1, [Event.trigger 1 7, Event.fetch 1 9]⟩ := by
  constructor
  · intro env T i fuel h
    obtain ⟨h1, h2⟩ := runLoop_success_first env T i fuel (initState i) h
    exact ⟨h1, fun k hk1 hk2 => h2 k hk1 hk2⟩
  · rfl

/-- Claim C6, counterexample: at the boundary `interval = timeout` (5 and 5)
both channels become ready at the same instant and the schedule in which
Go's `select` picks the timeout case yields a terminal timeout result with
zero attempts, although `interval ≤ timeout` holds and every fetch would
have returned a successful snapshot. -/
theorem interval_eq_timeout_zero_attempts_cex :
    (5 : Nat) ≤ 5 ∧
    runLoop envTieTimeout 5 5 10 (initState 5) = ⟨some false, 0, []⟩ :=
  ⟨Nat.le_refl 5, rfl⟩

/-- Claim C6, amended: for positive durations with `interval` strictly less
than `timeout`, the run performs at least one attempt before any terminal
result (at the boundary `interval = timeout` the first `select` is a tie and
zero attempts are possible). -/
theorem at_least_one_attempt_of_interval_lt_timeout :
    ∀ (env : Env) (T i fuel : Nat), 0 < i → i < T →
      1 ≤ (runLoop env T i (fuel + 1) (initState i)).attempts := by
  intro env T i fuel _ h
  have hT := timeoutWins_init_of_gt env T i h
  exact runLoop_step_attempt env T i fuel (initState i) hT

theorem at_least_one_attempt_of_interval_lt_timeout_witness :
    1 ≤ (runLoop envNeverOK 10 3 20 (initState 3)).attempts :=
  at_least_one_attempt_of_interval_lt_timeout envNeverOK 10 3 19 (by decide) (by decide)

/-- Claim C7: within every run the trace is strictly ordered — the trigger
command of attempt `k` precedes everything of attempt `k` and later attempts
(`eventKey` strictly increases along the trace), instants never decrease
(attempt N+1 never starts before attempt N's evaluation completed), every
status fetch happens exactly the fixed grace pause after the trigger of the
same attempt, and that grace pause is 2 time units. -/
theorem attempt_ordering_guarantee :
    ∀ (env : Env) (T i fuel : Nat),
      List.Chain' (fun e e' => eventKey e < eventKey e')
          (runLoop env T i fuel (initState i)).trace ∧
      List.Chain' (fun e e' => eventTime e ≤ eventTime e')
          (runLoop env T i fuel (initState i)).trace ∧
      (∀ k u, Event.fetch k u ∈ (runLoop env T i fuel (initState i)).trace →
        ∃ s, u = s + graceSleep ∧
          Event.trigger k s ∈ (runLoop env T i fuel (initState i)).trace) ∧
      graceSleep = 2 := by
  intro env T i fuel
  have h := runLoop_traceWF env T i fuel (initState i)
  exact ⟨traceWF_chain_key h, traceWF_chain_time h, traceWF_fetch_trigger h, rfl⟩

/-- Claim C8: `Logger.Error` writes a line exactly when the logger's level
is the string `"DEBUG"`; at any other level — in particular the default
`"INFO"` — it writes nothing, and when it writes it uses the `DEBUG: `
prefix with `ERROR: ` prepended to the message. -/
theorem logger_error_only_debug :
    (∀ (l : Logger) (msg : String),
        (Logger.Error l msg).isSome = true ↔ l.level = "DEBUG") ∧
    (∀ msg : String, Logger.Error ⟨"INFO"⟩ msg = none) ∧
    (∀ (l : Logger) (msg : String), l.level = "DEBUG" →
        Logger.Error l msg = some ("DEBUG: " ++ ("ERROR: " ++ msg))) := by
  refine ⟨?_, ?_, ?_⟩
  · intro l msg
    unfold Logger.Error
    by_cases h : l.level = "DEBUG" <;> simp [h]
  · intro msg
    rfl
  · intro l msg h
    unfold Logger.Error
    rw [if_pos h]

/-- Claim C9: `loadConfig` replaces zero-valued fields with the defaults
(timeout 120, interval 7, level `"INFO"`, file `"deluge-reannounce.log"`),
never yields a zero timeout or interval (a configured 0 is indistinguishable
from an absent field), and passes negative values through unchanged. -/
theorem loadConfig_default_values :
    (∀ c : Config, (loadConfigDefaults c).Retry.Timeout =
        if c.Retry.Timeout = 0 then 120 else c.Retry.Timeout) ∧
    (∀ c : Config, (loadConfigDefaults c).Retry.Interval =
        if c.Retry.Interval = 0 then 7 else c.Retry.Interval) ∧
    (∀ c : Config, (loadConfigDefaults c).Logging.Level =
        if c.Logging.Level = "" then "INFO" else c.Logging.Level) ∧
    (∀ c : Config, (loadConfigDefaults c).Logging.File =
        if c.Logging.File = "" then "deluge-reannounce.log" else c.Logging.File) ∧
    (∀ c : Config, (loadConfigDefaults c).Retry.Timeout ≠ 0 ∧
        (loadConfigDefaults c).Retry.Interval ≠ 0) ∧
    (∀ c : Config, c.Retry.Timeout < 0 →
        (loadConfigDefaults c).Retry.Timeout = c.Retry.Timeout) ∧
    (∀ c : Config, c.Retry.Interval < 0 →
        (loadConfigDefaults c).Retry.Interval = c.Retry.Interval) := by
  refine ⟨fun c => rfl, fun c => rfl, fun c => rfl, fun c => rfl, ?_, ?_, ?_⟩
  · intro c
    constructor
    · show (if c.Retry.Timeout = 0 then (120 : Int) else c.Retry.Timeout) ≠ 0
      by_cases h : c.Retry.Timeout = 0
      · rw [if_pos h]; decide
      · rw [if_neg h]; exact h
    · show (if c.Retry.Interval = 0 then (7 : Int) else c.Retry.Interval) ≠ 0
      by_cases h : c.Retry.Interval = 0
      · rw [if_pos h]; decide
      · rw [if_neg h]; exact h
  · intro c h
    show (if c.Retry.Timeout = 0 then (120 : Int) else c.Retry.Timeout) = c.Retry.Timeout
    rw [if_neg (by omega)]
  · intro c h
    show (if c.Retry.Interval = 0 then (7 : Int) else c.Retry.Interval) = c.Retry.Interval
    rw [if_neg (by omega)]

/-- Claim C10: `ForceReannounce` starts by constructing the ticker, whose
contract panics exactly for non-positive intervals; `loadConfig` lets a
negative configured interval through unchanged; and under the precondition
`interval > 0` the panic branch is unreachable. -/
theorem newTicker_positive_interval_precondition :
    (∀ d : Int, NewTicker d = none ↔ d ≤ 0) ∧
    (∀ c : Config, c.Retry.Interval < 0 →
        (loadConfigDefaults c).Retry.Interval = c.Retry.Interval) ∧
    (∀ (env : Env) (timeout interval : Int) (fuel : Nat), 0 < interval →
        ForceReannounce env timeout interval fuel ≠ RunOutcome.panicked) := by
  refine ⟨?_, ?_, ?_⟩
  · intro d
    unfold NewTicker
    by_cases h : d ≤ 0 <;> simp [h]
  · intro c h
    show (if c.Retry.Interval = 0 then (7 : Int) else c.Retry.Interval) = c.Retry.Interval
    rw [if_neg (by omega)]
  · intro env timeout interval fuel h hcontra
    have hnt : NewTicker interval = some interval.toNat := by
      unfold NewTicker
      rw [if_neg (by omega)]
    unfold ForceReannounce at hcontra
    rw [hnt] at hcontra
    exact RunOutcome.noConfusion hcontra

end DelugeReannounce
